import Mathlib

/-!
Verification of `qiskit/ignis/characterization/hamiltonian/schedule.py`.

The module composes timed pulse objects (drawn from a backend's command
definitions) into cross-resonance (CR) Rabi and tomography experiment
schedules.  We give a shallow embedding of the module's data model and of its
three public builders plus the private channel-resolution helper, and prove
the specification's claims about them.

Modelling conventions (all drawn from the source and from the documented
semantics of the external pulse library the source calls):
  * a `Schedule` is its name together with the flat list of its timed
    instructions, each instruction being a pulse command bound to channels at
    an integer start offset; a schedule's duration is the maximum instruction
    end time (the timeslot semantics of the pulse library);
  * `Schedule.insert t sub` composes: it adjoins `sub`'s instructions shifted
    by `t`; the Python statements `sched.insert(...)` are embedded by explicit
    state passing;
  * amplitudes (Python `complex`/`float`) are modelled as pairs of rationals,
    exact for every value the claims mention; phase parameters are rational
    multiples of pi (`piAngle` encodes pi itself), exact for the two `u2`
    phases the source uses;
  * Python schedule names may be `int` or `str` (`PyVal`); `'%d' % index`
    yields a decimal string, and applying `%d` to a `str` raises `TypeError`;
  * fallible code returns `Except Err`, with `Err` covering the
    `CharacterizationError`, `PulseError` and `TypeError` conditions the
    source can raise.
-/

namespace CRSched

/-- A Python `complex` (or `float`, embedded as `im = 0`), with exact rational
components. -/
structure Cplx where
  re : ℚ
  im : ℚ
deriving DecidableEq, Repr

/-- The zero amplitude: Python's `0`, `0.0` and `0j` all equal it and all are
falsy. -/
def Cplx.zero : Cplx := ⟨0, 0⟩

/-- Python unary minus on amplitudes (`-cr_amp`, `-cancellation_amp`). -/
def Cplx.neg (z : Cplx) : Cplx := ⟨-z.re, -z.im⟩

/-- Python truthiness of an optional amplitude: `None`, `0`, `0.0` and `0j`
are falsy, every other value is truthy (`if cancellation_amp:`). -/
def pyTruthy : Option Cplx → Bool
  | none => false
  | some z => decide (¬ z = Cplx.zero)

/-- A Python schedule name: `pulse.Schedule(name=...)` stores whatever object
it is given; the module produces `str` names while `%d` formatting demands a
number. -/
inductive PyVal where
  | int : Int → PyVal
  | str : String → PyVal
deriving DecidableEq, Repr

/-- Pulse channels of `qiskit.pulse.channels`: drive, control (the coupling
channel carrying the CR drive), measure and acquire channels, each indexed. -/
inductive Channel where
  | drive : Nat → Channel
  | control : Nat → Channel
  | measure : Nat → Channel
  | acquire : Nat → Channel
deriving DecidableEq, Repr

/-- `isinstance(channel, pulse.ControlChannel)`. -/
def Channel.isControl : Channel → Bool
  | .control _ => true
  | _ => false

/-- Pulse commands the module composes.  `gaussianSquare` is
`pulse_lib.gaussian_square` (a `SamplePulse`), `samplePulse` stands for any
other calibrated sample pulse occurring in a backend-supplied schedule,
`delay` is `pulse.commands.Delay`, `acquireCmd` an acquisition, and
`frameChange` a zero-duration frame change. -/
inductive Command where
  | gaussianSquare : Nat → Cplx → ℚ → Nat → Command
  | samplePulse : Nat → Nat → Command
  | delay : Nat → Command
  | acquireCmd : Nat → Command
  | frameChange : ℚ → Command
deriving DecidableEq, Repr

/-- The sample duration of a command; frame changes take no time. -/
def Command.duration : Command → Nat
  | .gaussianSquare d _ _ _ => d
  | .samplePulse d _ => d
  | .delay d => d
  | .acquireCmd d => d
  | .frameChange _ => 0

/-- `PulseInstruction` test: exactly the instructions carrying a sample pulse
(`gaussian_square` also constructs a `SamplePulse`); delays, acquisitions and
frame changes are other instruction types and are dropped by
`filter(instruction_types=[pulse.commands.PulseInstruction])`. -/
def Command.isPulse : Command → Bool
  | .gaussianSquare _ _ _ _ => true
  | .samplePulse _ _ => true
  | _ => false

/-- A timed pulse instruction: a command bound to its hardware channels. -/
structure Instruction where
  command : Command
  channels : List Channel
deriving DecidableEq, Repr

/-- End time of an instruction placed at a start offset. -/
def instrEnd (ti : Nat × Instruction) : Nat := ti.1 + ti.2.command.duration

/-- Shift every instruction of a timed list by `t` (used by `insert`/`shift`). -/
def shiftInstrs (t : Nat) (l : List (Nat × Instruction)) : List (Nat × Instruction) :=
  l.map (fun ti => (ti.1 + t, ti.2))

/-- A timed pulse schedule: its Python name and its flat, ordered list of
`(start offset, instruction)` pairs. -/
structure Schedule where
  name : PyVal
  instructions : List (Nat × Instruction)
deriving DecidableEq, Repr

/-- Total schedule duration: the maximum end time over all instructions
(`0` for an empty schedule) — the timeslot semantics of the pulse library. -/
def Schedule.duration (s : Schedule) : Nat :=
  (s.instructions.map instrEnd).foldr max 0

/-- `sched.insert(t, cmd(channel))` for a single command instruction. -/
def Schedule.insertInstr (s : Schedule) (t : Nat) (i : Instruction) : Schedule :=
  ⟨s.name, s.instructions ++ [(t, i)]⟩

/-- `sched.insert(t, sub)`: compose `sub` into `s` with all of `sub`'s
instructions shifted by `t`. -/
def Schedule.insert (s : Schedule) (t : Nat) (sub : Schedule) : Schedule :=
  ⟨s.name, s.instructions ++ shiftInstrs t sub.instructions⟩

/-- `sched.shift(t)`. -/
def Schedule.shift (s : Schedule) (t : Nat) : Schedule :=
  ⟨s.name, shiftInstrs t s.instructions⟩

/-- `sched.filter(instruction_types=[pulse.commands.PulseInstruction])`. -/
def Schedule.filterPulse (s : Schedule) : Schedule :=
  ⟨s.name, s.instructions.filter (fun ti => ti.2.command.isPulse)⟩

/-- `sched.channels`: the channels touched by the schedule's instructions. -/
def Schedule.channels (s : Schedule) : List Channel :=
  (s.instructions.map (fun ti => ti.2.channels)).flatten

/-- Errors the module can raise: the characterization-domain error, the pulse
library's `PulseError` (undefined command), and Python's `TypeError` (bad
format argument). -/
inductive Err where
  | characterization : String → Err
  | pulseError : String → Err
  | typeError : String → Err
deriving DecidableEq, Repr

/-- A command-definition mapping: `(operation name, qubits, params)` to the
calibrated timed pulse schedule, `none` when the operation is undefined for
those qubits. -/
structure CmdDef where
  cmds : String → List Nat → List ℚ → Option Schedule

/-- `cmd_def.get(name, qubits, **params)`: raises `PulseError` when the
command is not defined. -/
def CmdDef.get (cd : CmdDef) (name : String) (qubits : List Nat) (params : List ℚ) :
    Except Err Schedule :=
  match cd.cmds name qubits params with
  | some s => Except.ok s
  | none => Except.error (Err.pulseError name)

/-- The backend snapshot the module reads: the command-definition mapping
derived from `backend.defaults()` (`CmdDef.from_defaults`), the hardware
buffer `defaults.buffer`, the sample interval `configuration().dt` (in
nanoseconds), and the first measurement group `configuration().meas_map[0]`. -/
structure Backend where
  defaultCmdDef : CmdDef
  buffer : Nat
  dt : ℚ
  measMap0 : List Nat

/-- `PulseChannelSpec.from_backend(backend).qubits[q].drive`: qubit `q`'s
analog drive channel. -/
def driveChannelOf (q : Nat) : Channel := Channel.drive q

/-- The constant pi.  Phase parameters are encoded as rational multiples of
pi, so pi itself is `1`; the encoding is exact for the phases `0`, `pi` and
`0.5 * pi` the source uses. -/
def piAngle : ℚ := 1

def cxName : String := "cx"
def xGateName : String := "x"
def measureName : String := "measure"
def u2Name : String := "u2"
def xBasisLabel : String := "x"
def yBasisLabel : String := "y"
def zBasisLabel : String := "z"

/-- Message of the first characterization error of `_get_channels`
(`'Cross resonance is not defined for qubits %d-%d.' % (c_qubit, t_qubit)`). -/
def crNotDefinedMsg (c_qubit t_qubit : Nat) : String :=
  "Cross resonance is not defined for qubits " ++ Nat.repr c_qubit ++ "-"
    ++ Nat.repr t_qubit ++ "."

/-- Message of the second characterization error of `_get_channels`. -/
def noControlChannelMsg : String :=
  "No valid control channel to drive cross resonance."

/-- Message of Python's `TypeError` for `'%d' % s` with `s` a `str`. -/
def dFormatErrMsg : String := "%d format: a number is required, not str"

/-- `_get_channels`: resolve the control drive, target drive and
cross-resonance (coupling) drive channels for a qubit pair.  The `try`/
`except PulseError` around `cmd_def.get('cx', ...)` re-raises as the
characterization error; the `for`/`else` scan picks the first
`ControlChannel` among the channels of the pulse-type instructions of the
`cx` schedule and falls through to the second characterization error when
none exists. -/
def get_channels (c_qubit t_qubit : Nat) (backend : Backend)
    (cmdDefOpt : Option CmdDef) : Except Err (Channel × Channel × Channel) :=
  let cmd_def := cmdDefOpt.getD backend.defaultCmdDef
  match cmd_def.cmds cxName [c_qubit, t_qubit] [] with
  | none => Except.error (Err.characterization (crNotDefinedMsg c_qubit t_qubit))
  | some cx_ref =>
    match cx_ref.filterPulse.channels.find? Channel.isControl with
    | some cr_drive =>
        Except.ok (driveChannelOf c_qubit, driveChannelOf t_qubit, cr_drive)
    | none => Except.error (Err.characterization noControlChannelMsg)

/-- The cancellation command of the rabi builders: a flat-top
(Gaussian-square) pulse when a truthy cancellation amplitude is given, else a
pure delay of the same duration (`if cancellation_amp: ... else: Delay`). -/
def canCmd (cancellation_amp : Option Cplx) (duration : Nat) (sigma : ℚ)
    (risefall : Nat) : Command :=
  if pyTruthy cancellation_amp then
    Command.gaussianSquare duration (cancellation_amp.getD Cplx.zero) sigma risefall
  else
    Command.delay duration

/-- The negative-amplitude cancellation command of the echoed builder
(`amp=-cancellation_amp`), a delay in the same cases as `canCmd`. -/
def canNegCmd (cancellation_amp : Option Cplx) (duration : Nat) (sigma : ℚ)
    (risefall : Nat) : Command :=
  if pyTruthy cancellation_amp then
    Command.gaussianSquare duration (cancellation_amp.getD Cplx.zero).neg sigma risefall
  else
    Command.delay duration

/-- Body of the `cr1_rabi_schedules` loop: the schedule named `'%d' % index`
holding the CR flat-top pulse on the coupling channel and the cancellation
pulse (or delay) on the target drive channel, both inserted at offset `0`. -/
def cr1Single (t_drive cr_drive : Channel) (cr_amp : Cplx) (sigma : ℚ)
    (risefall : Nat) (cancellation_amp : Option Cplx) (index cr_sample : Nat) :
    Schedule :=
  let sched : Schedule := ⟨PyVal.str (Nat.repr index), []⟩
  let cr_sched := Command.gaussianSquare cr_sample cr_amp sigma risefall
  let can_sched := canCmd cancellation_amp cr_sample sigma risefall
  let sched := sched.insertInstr 0 ⟨cr_sched, [cr_drive]⟩
  let sched := sched.insertInstr 0 ⟨can_sched, [t_drive]⟩
  sched

/-- The `for index, cr_sample in enumerate(cr_samples)` loop of
`cr1_rabi_schedules`. -/
def cr1Loop (t_drive cr_drive : Channel) (cr_amp : Cplx) (sigma : ℚ)
    (risefall : Nat) (cancellation_amp : Option Cplx) :
    Nat → List Nat → List Schedule
  | _, [] => []
  | index, cr_sample :: rest =>
      cr1Single t_drive cr_drive cr_amp sigma risefall cancellation_amp index cr_sample
        :: cr1Loop t_drive cr_drive cr_amp sigma risefall cancellation_amp (index + 1) rest

/-- The returned `cr_times`: `np.array(cr_samples) * dt * 1e-9`. -/
def crTimes (cr_samples : List Nat) (dt : ℚ) : List ℚ :=
  cr_samples.map (fun (d : Nat) => (d : ℚ) * dt * (1 / 10 ^ 9))

/-- `cr1_rabi_schedules`: the unechoed CR Rabi builder. -/
def cr1_rabi_schedules (c_qubit t_qubit : Nat) (backend : Backend)
    (cr_samples : List Nat) (cr_amp : Cplx) (sigma : ℚ) (risefall : Nat)
    (cancellation_amp : Option Cplx) (cmdDefOpt : Option CmdDef) :
    Except Err (List ℚ × List Schedule) :=
  let cmd_def := cmdDefOpt.getD backend.defaultCmdDef
  match get_channels c_qubit t_qubit backend (some cmd_def) with
  | Except.error e => Except.error e
  | Except.ok (_, t_drive, cr_drive) =>
      Except.ok (crTimes cr_samples backend.dt,
        cr1Loop t_drive cr_drive cr_amp sigma risefall cancellation_amp 0 cr_samples)

/-- Body of the `cr2_rabi_schedules` loop: positive CR and cancellation
flat-tops at offset `0`, then echo pulse, negative CR flat-top, negative
cancellation flat-top (or delay) and echo pulse again, each inserted at the
running schedule duration plus one buffer
(`half_cr_sample = int(0.5 * cr_sample)` truncates, which is `cr_sample / 2`
on natural sample counts). -/
def cr2Single (t_drive cr_drive : Channel) (echo_pi : Schedule) (buffer : Nat)
    (cr_amp : Cplx) (sigma : ℚ) (risefall : Nat) (cancellation_amp : Option Cplx)
    (index cr_sample : Nat) : Schedule :=
  let sched : Schedule := ⟨PyVal.str (Nat.repr index), []⟩
  let half_cr_sample := cr_sample / 2
  let cr_sched_p := Command.gaussianSquare half_cr_sample cr_amp sigma risefall
  let cr_sched_m := Command.gaussianSquare half_cr_sample cr_amp.neg sigma risefall
  let can_sched_p := canCmd cancellation_amp half_cr_sample sigma risefall
  let can_sched_m := canNegCmd cancellation_amp half_cr_sample sigma risefall
  let sched := sched.insertInstr 0 ⟨cr_sched_p, [cr_drive]⟩
  let sched := sched.insertInstr 0 ⟨can_sched_p, [t_drive]⟩
  let sched := sched.insert (sched.duration + buffer) echo_pi
  let sched := sched.insertInstr (sched.duration + buffer) ⟨cr_sched_m, [cr_drive]⟩
  let sched := sched.insertInstr (sched.duration + buffer) ⟨can_sched_m, [t_drive]⟩
  let sched := sched.insert (sched.duration + buffer) echo_pi
  sched

/-- The `for index, cr_sample in enumerate(cr_samples)` loop of
`cr2_rabi_schedules`. -/
def cr2Loop (t_drive cr_drive : Channel) (echo_pi : Schedule) (buffer : Nat)
    (cr_amp : Cplx) (sigma : ℚ) (risefall : Nat) (cancellation_amp : Option Cplx) :
    Nat → List Nat → List Schedule
  | _, [] => []
  | index, cr_sample :: rest =>
      cr2Single t_drive cr_drive echo_pi buffer cr_amp sigma risefall
          cancellation_amp index cr_sample
        :: cr2Loop t_drive cr_drive echo_pi buffer cr_amp sigma risefall
            cancellation_amp (index + 1) rest

/-- `cr2_rabi_schedules`: the echoed CR Rabi builder.  `echo_pi` is the
control qubit's calibrated `x` pulse and `buffer = backend.defaults().buffer`. -/
def cr2_rabi_schedules (c_qubit t_qubit : Nat) (backend : Backend)
    (cr_samples : List Nat) (cr_amp : Cplx) (sigma : ℚ) (risefall : Nat)
    (cancellation_amp : Option Cplx) (cmdDefOpt : Option CmdDef) :
    Except Err (List ℚ × List Schedule) :=
  let cmd_def := cmdDefOpt.getD backend.defaultCmdDef
  match get_channels c_qubit t_qubit backend (some cmd_def) with
  | Except.error e => Except.error e
  | Except.ok (_, t_drive, cr_drive) =>
      match cmd_def.get xGateName [c_qubit] [] with
      | Except.error e => Except.error e
      | Except.ok echo_pi =>
          Except.ok (crTimes cr_samples backend.dt,
            cr2Loop t_drive cr_drive echo_pi backend.buffer cr_amp sigma risefall
              cancellation_amp 0 cr_samples)

/-- `'%d,%s,%d' % (rabi_sched.name, basis, c_state)`: succeeds only when the
rabi schedule's name is a number (`%d` applied to a `str` raises
`TypeError`). -/
def formatSchedName : PyVal → String → Nat → Except Err String
  | PyVal.int n, basis, c_state =>
      Except.ok (toString n ++ "," ++ basis ++ "," ++ Nat.repr c_state)
  | PyVal.str _, _, _ => Except.error (Err.typeError dFormatErrMsg)

/-- `flip_ctrl = cmd_def.get('x', qubits=c_qubit)`: the pi pulse flipping the
control qubit. -/
def flipCtrl (c_qubit : Nat) (backend : Backend) (cmdDefOpt : Option CmdDef) :
    Except Err Schedule :=
  (cmdDefOpt.getD backend.defaultCmdDef).get xGateName [c_qubit] []

/-- The `meas_basis` dictionary of `cr_tomography_schedules` in its insertion
(= iteration) order `x`, `y`, `z`: the two `u2` basis rotations with the
measurement block inserted after `proj_delay`, and the bare measurement block
shifted by `proj_delay` for `z`. -/
def measBasisList (t_qubit : Nat) (backend : Backend) (cmdDefOpt : Option CmdDef) :
    Except Err (List (String × Schedule)) :=
  let cmd_def := cmdDefOpt.getD backend.defaultCmdDef
  match cmd_def.get measureName backend.measMap0 [] with
  | Except.error e => Except.error e
  | Except.ok measure =>
    match cmd_def.get u2Name [t_qubit] [0, piAngle] with
    | Except.error e => Except.error e
    | Except.ok xproj_sched =>
      match cmd_def.get u2Name [t_qubit] [0, (1 / 2 : ℚ) * piAngle] with
      | Except.error e => Except.error e
      | Except.ok yproj_sched =>
        let proj_delay := max xproj_sched.duration yproj_sched.duration + backend.buffer
        Except.ok [(xBasisLabel, xproj_sched.insert proj_delay measure),
                   (yBasisLabel, yproj_sched.insert proj_delay measure),
                   (zBasisLabel, measure.shift proj_delay)]

/-- Body of the innermost `cr_tomography_schedules` loop: the schedule for one
(rabi schedule, basis, control state) combination — composite name, flip
pulse at offset `0` when `c_state` is truthy, the CR rabi schedule at
`flip_ctrl.duration + buffer`, and the basis measurement schedule at the
running duration plus one buffer. -/
def tomoBody (flip_ctrl : Schedule) (buffer : Nat) (rabi_sched : Schedule)
    (bm : String × Schedule) (c_state : Nat) : Except Err Schedule :=
  match formatSchedName rabi_sched.name bm.1 c_state with
  | Except.error e => Except.error e
  | Except.ok nm =>
      let sched : Schedule := ⟨PyVal.str nm, []⟩
      let sched := if c_state ≠ 0 then sched.insert 0 flip_ctrl else sched
      let sched := sched.insert (flip_ctrl.duration + buffer) rabi_sched
      let sched := sched.insert (sched.duration + buffer) bm.2
      Except.ok sched

/-- The `for basis, meas_sched in meas_basis.items(): for c_state in (0, 1):`
loops for one rabi schedule. -/
def tomoPerRabi (flip_ctrl : Schedule) (buffer : Nat) (rabi_sched : Schedule) :
    List (String × Schedule) → Except Err (List Schedule)
  | [] => Except.ok []
  | bm :: rest =>
      match tomoBody flip_ctrl buffer rabi_sched bm 0 with
      | Except.error e => Except.error e
      | Except.ok s0 =>
          match tomoBody flip_ctrl buffer rabi_sched bm 1 with
          | Except.error e => Except.error e
          | Except.ok s1 =>
              match tomoPerRabi flip_ctrl buffer rabi_sched rest with
              | Except.error e => Except.error e
              | Except.ok tail => Except.ok (s0 :: s1 :: tail)

/-- The outer `for rabi_sched in rabi_schedules:` loop. -/
def tomoAll (flip_ctrl : Schedule) (buffer : Nat)
    (meas_basis : List (String × Schedule)) :
    List Schedule → Except Err (List Schedule)
  | [] => Except.ok []
  | rabi_sched :: rest =>
      match tomoPerRabi flip_ctrl buffer rabi_sched meas_basis with
      | Except.error e => Except.error e
      | Except.ok per =>
          match tomoAll flip_ctrl buffer meas_basis rest with
          | Except.error e => Except.error e
          | Except.ok tail => Except.ok (per ++ tail)

/-- `cr_tomography_schedules`: one schedule per
(rabi schedule × basis × control state) combination. -/
def cr_tomography_schedules (c_qubit t_qubit : Nat) (backend : Backend)
    (rabi_schedules : List Schedule) (cmdDefOpt : Option CmdDef) :
    Except Err (List Schedule) :=
  match flipCtrl c_qubit backend cmdDefOpt with
  | Except.error e => Except.error e
  | Except.ok flip_ctrl =>
      match measBasisList t_qubit backend cmdDefOpt with
      | Except.error e => Except.error e
      | Except.ok meas_basis =>
          tomoAll flip_ctrl backend.buffer meas_basis rabi_schedules

end CRSched

namespace CRSched

/-! ### Concrete fixtures

A small concrete backend used to witness the theorems: qubits `0` (control)
and `1` (target), buffer `2`, sample interval `dt = 1` ns, a `cx` schedule
whose pulse instructions touch `ControlChannel 0`, a calibrated `x` pulse of
duration `4`, a measurement block of duration `5` and a zero-duration `u2`
frame change. -/

def ampW : Cplx := ⟨1 / 5, 0⟩

def cxW : Schedule :=
  ⟨PyVal.str cxName,
   [(0, ⟨Command.samplePulse 3 0, [Channel.drive 0]⟩),
    (0, ⟨Command.samplePulse 3 1, [Channel.control 0]⟩)]⟩

def echoW : Schedule :=
  ⟨PyVal.str xGateName, [(0, ⟨Command.samplePulse 4 2, [Channel.drive 0]⟩)]⟩

def measW : Schedule :=
  ⟨PyVal.str measureName,
   [(0, ⟨Command.acquireCmd 5, [Channel.measure 0, Channel.acquire 0]⟩)]⟩

def uprojW : Schedule :=
  ⟨PyVal.str u2Name, [(0, ⟨Command.frameChange (1 / 2), [Channel.drive 1]⟩)]⟩

def cmdsW : String → List Nat → List ℚ → Option Schedule := fun name qubits _params =>
  if name = cxName ∧ qubits = [0, 1] then some cxW
  else if name = xGateName ∧ qubits = [0] then some echoW
  else if name = measureName ∧ qubits = [0, 1] then some measW
  else if name = u2Name ∧ qubits = [1] then some uprojW
  else none

def backendW : Backend := ⟨⟨cmdsW⟩, 2, 1, [0, 1]⟩

/-- A backend defining no `cx` primitive at all. -/
def backendNoCx : Backend := ⟨⟨fun _ _ _ => none⟩, 2, 1, [0]⟩

/-- A `cx` schedule whose only coupling-channel instruction is a frame change
(not a pulse instruction), so the filtered channel list has no control
channel. -/
def cxNoCtrlW : Schedule :=
  ⟨PyVal.str cxName,
   [(0, ⟨Command.frameChange (1 / 2), [Channel.control 0]⟩),
    (0, ⟨Command.samplePulse 3 0, [Channel.drive 0]⟩)]⟩

def backendNoCtrl : Backend :=
  ⟨⟨fun name qubits _params =>
      if name = cxName ∧ qubits = [0, 1] then some cxNoCtrlW else none⟩, 2, 1, [0]⟩

/-- An integer-named rabi schedule (the only kind the tomography naming
accepts). -/
def rabiIntW : Schedule := ⟨PyVal.int 0, [(0, ⟨Command.delay 10, [Channel.drive 1]⟩)]⟩

/-! ### Duration lemmas -/

theorem foldr_max_append (a b : List Nat) :
    (a ++ b).foldr max 0 = max (a.foldr max 0) (b.foldr max 0) := by
  induction a with
  | nil => simp
  | cons x xs ih => simp [ih]; omega

theorem map_instrEnd_shift (t : Nat) (l : List (Nat × Instruction)) :
    (shiftInstrs t l).map instrEnd = (l.map instrEnd).map (· + t) := by
  induction l with
  | nil => rfl
  | cons x xs ih =>
      simp only [shiftInstrs, List.map_cons] at ih ⊢
      refine congrArg₂ _ ?_ ih
      simp [instrEnd]; omega

theorem foldr_max_map_add (t : Nat) (l : List Nat) (h : l ≠ []) :
    ((l.map (· + t)).foldr max 0) = l.foldr max 0 + t := by
  induction l with
  | nil => exact absurd rfl h
  | cons x xs ih =>
      cases xs with
      | nil => simp
      | cons y ys =>
          have := ih (by simp)
          simp only [List.map_cons, List.foldr_cons] at this ⊢
          omega

theorem Schedule.duration_insertInstr (s : Schedule) (t : Nat) (i : Instruction) :
    (s.insertInstr t i).duration = max s.duration (t + i.command.duration) := by
  simp only [Schedule.duration, Schedule.insertInstr, List.map_append, foldr_max_append,
    List.map_cons, List.map_nil, List.foldr_cons, List.foldr_nil, instrEnd]
  omega

theorem Schedule.duration_insert (s : Schedule) (t : Nat) (sub : Schedule)
    (h : sub.instructions ≠ []) :
    (s.insert t sub).duration = max s.duration (t + sub.duration) := by
  have hne : sub.instructions.map instrEnd ≠ [] := by
    simpa using h
  simp only [Schedule.duration, Schedule.insert, List.map_append, foldr_max_append,
    map_instrEnd_shift, foldr_max_map_add t _ hne]
  omega

/-! ### Rabi-builder lemmas -/

theorem canCmd_duration (can : Option Cplx) (d : Nat) (sigma : ℚ) (rf : Nat) :
    (canCmd can d sigma rf).duration = d := by
  unfold canCmd
  split <;> rfl

theorem canNegCmd_duration (can : Option Cplx) (d : Nat) (sigma : ℚ) (rf : Nat) :
    (canNegCmd can d sigma rf).duration = d := by
  unfold canNegCmd
  split <;> rfl

theorem cr1Single_instructions (t_drive cr_drive : Channel) (cr_amp : Cplx)
    (sigma : ℚ) (rf : Nat) (can : Option Cplx) (i d : Nat) :
    (cr1Single t_drive cr_drive cr_amp sigma rf can i d).instructions =
      [(0, ⟨Command.gaussianSquare d cr_amp sigma rf, [cr_drive]⟩),
       (0, ⟨canCmd can d sigma rf, [t_drive]⟩)] := rfl

theorem cr1Single_duration (t_drive cr_drive : Channel) (cr_amp : Cplx)
    (sigma : ℚ) (rf : Nat) (can : Option Cplx) (i d : Nat) :
    (cr1Single t_drive cr_drive cr_amp sigma rf can i d).duration = d := by
  simp only [Schedule.duration, cr1Single_instructions, List.map_cons, List.map_nil,
    List.foldr_cons, List.foldr_nil, instrEnd, canCmd_duration]
  simp [Command.duration]

theorem cr1Loop_length (t_drive cr_drive : Channel) (cr_amp : Cplx) (sigma : ℚ)
    (rf : Nat) (can : Option Cplx) (i0 : Nat) (l : List Nat) :
    (cr1Loop t_drive cr_drive cr_amp sigma rf can i0 l).length = l.length := by
  induction l generalizing i0 with
  | nil => rfl
  | cons d rest ih => simp [cr1Loop, ih]

theorem cr1Loop_getElem? (t_drive cr_drive : Channel) (cr_amp : Cplx) (sigma : ℚ)
    (rf : Nat) (can : Option Cplx) (i0 : Nat) (l : List Nat) (i : Nat) :
    (cr1Loop t_drive cr_drive cr_amp sigma rf can i0 l)[i]? =
      (l[i]?).map (fun d => cr1Single t_drive cr_drive cr_amp sigma rf can (i0 + i) d) := by
  induction l generalizing i0 i with
  | nil => simp [cr1Loop]
  | cons d rest ih =>
      cases i with
      | zero => simp [cr1Loop]
      | succ j =>
          simp only [cr1Loop, List.getElem?_cons_succ, ih]
          have : i0 + 1 + j = i0 + (j + 1) := by omega
          rw [this]

end CRSched

namespace CRSched

/-! ### C1: unechoed builder -/

/-- C1: For every list of N requested durations, `cr1_rabi_schedules` returns
exactly N schedules, and each returned schedule's total duration equals the
corresponding requested duration; each schedule consists of exactly the CR
pulse and the cancellation pulse (or delay), both inserted at offset zero and
of that same duration — so they end at the same time — whether or not a
cancellation amplitude is given. -/
theorem c1_unechoed_builder_durations (c_qubit t_qubit : Nat) (backend : Backend)
    (cr_samples : List Nat) (cr_amp : Cplx) (sigma : ℚ) (risefall : Nat)
    (cancellation_amp : Option Cplx) (cmdDefOpt : Option CmdDef)
    (times : List ℚ) (scheds : List Schedule)
    (h : cr1_rabi_schedules c_qubit t_qubit backend cr_samples cr_amp sigma risefall
          cancellation_amp cmdDefOpt = Except.ok (times, scheds)) :
    scheds.length = cr_samples.length ∧
    ∀ i, i < cr_samples.length →
      ∃ d s, cr_samples[i]? = some d ∧ scheds[i]? = some s ∧
        s.duration = d ∧ s.instructions.length = 2 ∧
        ∀ ti ∈ s.instructions, ti.1 = 0 ∧ ti.2.command.duration = d := by
  simp only [cr1_rabi_schedules] at h
  cases hgc : get_channels c_qubit t_qubit backend
      (some (cmdDefOpt.getD backend.defaultCmdDef)) with
  | error e => rw [hgc] at h; simp at h
  | ok chans =>
      obtain ⟨c_drive, t_drive, cr_drive⟩ := chans
      rw [hgc] at h
      simp only [Except.ok.injEq, Prod.mk.injEq] at h
      obtain ⟨-, hs⟩ := h
      subst hs
      refine ⟨cr1Loop_length .., ?_⟩
      intro i hi
      have hd : cr_samples[i]? = some cr_samples[i] := List.getElem?_eq_getElem hi
      refine ⟨cr_samples[i],
        cr1Single t_drive cr_drive cr_amp sigma risefall cancellation_amp i cr_samples[i],
        hd, ?_, cr1Single_duration .., ?_, ?_⟩
      · rw [cr1Loop_getElem?, hd]
        simp
      · simp [cr1Single_instructions]
      · intro ti hti
        rw [cr1Single_instructions] at hti
        simp only [List.mem_cons, List.mem_singleton, List.not_mem_nil, or_false] at hti
        rcases hti with rfl | rfl
        · exact ⟨rfl, rfl⟩
        · exact ⟨rfl, canCmd_duration ..⟩

/-- The concrete output of `cr1_rabi_schedules` on the witness backend. -/
def c1OutW : List ℚ × List Schedule :=
  (cr1_rabi_schedules 0 1 backendW [10] ampW 2 2 none none).toOption.getD ([], [])

/-- Witness for C1: the hypothesis of `c1_unechoed_builder_durations` holds at
a concrete input and the conclusion follows there. -/
theorem c1_unechoed_builder_durations_witness :
    cr1_rabi_schedules 0 1 backendW [10] ampW 2 2 none none
        = Except.ok (c1OutW.1, c1OutW.2) ∧
    c1OutW.2.length = ([10] : List Nat).length :=
  ⟨rfl, (c1_unechoed_builder_durations 0 1 backendW [10] ampW 2 2 none none
      c1OutW.1 c1OutW.2 rfl).1⟩

/-! ### C10: zero cancellation amplitude behaves as no cancellation -/

theorem canCmd_zero (d : Nat) (sigma : ℚ) (rf : Nat) :
    canCmd (some Cplx.zero) d sigma rf = canCmd none d sigma rf := rfl

theorem canNegCmd_zero (d : Nat) (sigma : ℚ) (rf : Nat) :
    canNegCmd (some Cplx.zero) d sigma rf = canNegCmd none d sigma rf := rfl

theorem cr1Single_zero (t_drive cr_drive : Channel) (cr_amp : Cplx) (sigma : ℚ)
    (rf : Nat) (i d : Nat) :
    cr1Single t_drive cr_drive cr_amp sigma rf (some Cplx.zero) i d =
      cr1Single t_drive cr_drive cr_amp sigma rf none i d := rfl

theorem cr1Loop_zero (t_drive cr_drive : Channel) (cr_amp : Cplx) (sigma : ℚ)
    (rf : Nat) (i0 : Nat) (l : List Nat) :
    cr1Loop t_drive cr_drive cr_amp sigma rf (some Cplx.zero) i0 l =
      cr1Loop t_drive cr_drive cr_amp sigma rf none i0 l := by
  induction l generalizing i0 with
  | nil => rfl
  | cons d rest ih => simp only [cr1Loop, cr1Single_zero, ih]

theorem cr2Single_zero (t_drive cr_drive : Channel) (echo_pi : Schedule)
    (buffer : Nat) (cr_amp : Cplx) (sigma : ℚ) (rf : Nat) (i d : Nat) :
    cr2Single t_drive cr_drive echo_pi buffer cr_amp sigma rf (some Cplx.zero) i d =
      cr2Single t_drive cr_drive echo_pi buffer cr_amp sigma rf none i d := rfl

theorem cr2Loop_zero (t_drive cr_drive : Channel) (echo_pi : Schedule)
    (buffer : Nat) (cr_amp : Cplx) (sigma : ℚ) (rf : Nat) (i0 : Nat) (l : List Nat) :
    cr2Loop t_drive cr_drive echo_pi buffer cr_amp sigma rf (some Cplx.zero) i0 l =
      cr2Loop t_drive cr_drive echo_pi buffer cr_amp sigma rf none i0 l := by
  induction l generalizing i0 with
  | nil => rfl
  | cons d rest ih => simp only [cr2Loop, cr2Single_zero, ih]

/-- C10: Calling `cr1_rabi_schedules` or `cr2_rabi_schedules` with a
cancellation amplitude equal to zero (Python `0`, `0.0` or `0j`, all equal to
`Cplx.zero` and all falsy) returns exactly the same result as calling it with
the amplitude omitted (`None`): in that case a pure delay of the pulse
duration is placed on the target drive channel instead of a zero-amplitude
flat-top pulse. -/
theorem c10_zero_amp_equals_none (c_qubit t_qubit : Nat) (backend : Backend)
    (cr_samples : List Nat) (cr_amp : Cplx) (sigma : ℚ) (risefall : Nat)
    (cmdDefOpt : Option CmdDef) :
    cr1_rabi_schedules c_qubit t_qubit backend cr_samples cr_amp sigma risefall
        (some Cplx.zero) cmdDefOpt =
      cr1_rabi_schedules c_qubit t_qubit backend cr_samples cr_amp sigma risefall
        none cmdDefOpt ∧
    cr2_rabi_schedules c_qubit t_qubit backend cr_samples cr_amp sigma risefall
        (some Cplx.zero) cmdDefOpt =
      cr2_rabi_schedules c_qubit t_qubit backend cr_samples cr_amp sigma risefall
        none cmdDefOpt ∧
    ∀ t_drive cr_drive i d,
      (cr1Single t_drive cr_drive cr_amp sigma risefall none i d).instructions =
        [(0, ⟨Command.gaussianSquare d cr_amp sigma risefall, [cr_drive]⟩),
         (0, ⟨Command.delay d, [t_drive]⟩)] := by
  refine ⟨?_, ?_, fun _ _ _ _ => rfl⟩
  · simp only [cr1_rabi_schedules]
    cases get_channels c_qubit t_qubit backend
        (some (cmdDefOpt.getD backend.defaultCmdDef)) with
    | error e => rfl
    | ok chans =>
        obtain ⟨c_drive, t_drive, cr_drive⟩ := chans
        simp only [cr1Loop_zero]
  · simp only [cr2_rabi_schedules]
    cases get_channels c_qubit t_qubit backend
        (some (cmdDefOpt.getD backend.defaultCmdDef)) with
    | error e => rfl
    | ok chans =>
        obtain ⟨c_drive, t_drive, cr_drive⟩ := chans
        cases (cmdDefOpt.getD backend.defaultCmdDef).get xGateName [c_qubit] [] with
        | error e => rfl
        | ok echo_pi => simp only [cr2Loop_zero]

/-! ### C9: the returned times carry an extra 1e-9 factor -/

/-- C9 counterexample: on the witness backend (`dt = 1`) with the single
requested duration `10`, the first returned time is `10 * dt * 1e-9 =
1/100000000`, not `10 * dt` as the claim states. -/
theorem c9_counterexample :
    (cr1_rabi_schedules 0 1 backendW [10] ampW 2 2 none none).toOption.map Prod.fst
        = some [(1 : ℚ) / 100000000] ∧
    ¬ ((1 : ℚ) / 100000000 = (10 : ℚ) * backendW.dt) := by
  have h : (cr1_rabi_schedules 0 1 backendW [10] ampW 2 2 none none).toOption.map Prod.fst
      = some (crTimes [10] backendW.dt) := rfl
  rw [h]
  refine ⟨?_, by norm_num [backendW]⟩
  norm_num [crTimes, backendW]

/-- C9 amended: the first component returned by `cr1_rabi_schedules` (and by
`cr2_rabi_schedules`) is the list of requested durations each multiplied by
the backend's sample interval `dt` and by `1e-9` (the `dt` attribute is in
nanoseconds and the times are reported in seconds):
`cr_times[i] = cr_samples[i] * dt * 1e-9`. -/
theorem c9_amended_times (c_qubit t_qubit : Nat) (backend : Backend)
    (cr_samples : List Nat) (cr_amp : Cplx) (sigma : ℚ) (risefall : Nat)
    (can : Option Cplx) (cmdDefOpt : Option CmdDef)
    (times1 times2 : List ℚ) (s1 s2 : List Schedule)
    (h1 : cr1_rabi_schedules c_qubit t_qubit backend cr_samples cr_amp sigma risefall
            can cmdDefOpt = Except.ok (times1, s1))
    (h2 : cr2_rabi_schedules c_qubit t_qubit backend cr_samples cr_amp sigma risefall
            can cmdDefOpt = Except.ok (times2, s2)) :
    times1.length = cr_samples.length ∧ times2.length = cr_samples.length ∧
    ∀ i, i < cr_samples.length → ∃ d, cr_samples[i]? = some d ∧
      times1[i]? = some ((d : ℚ) * backend.dt * (1 / 10 ^ 9)) ∧
      times2[i]? = some ((d : ℚ) * backend.dt * (1 / 10 ^ 9)) := by
  have ht1 : times1 = crTimes cr_samples backend.dt := by
    simp only [cr1_rabi_schedules] at h1
    cases hgc : get_channels c_qubit t_qubit backend
        (some (cmdDefOpt.getD backend.defaultCmdDef)) with
    | error e => rw [hgc] at h1; simp at h1
    | ok chans =>
        obtain ⟨a, b, c⟩ := chans
        rw [hgc] at h1
        simp only [Except.ok.injEq, Prod.mk.injEq] at h1
        exact h1.1.symm
  have ht2 : times2 = crTimes cr_samples backend.dt := by
    simp only [cr2_rabi_schedules] at h2
    cases hgc : get_channels c_qubit t_qubit backend
        (some (cmdDefOpt.getD backend.defaultCmdDef)) with
    | error e => rw [hgc] at h2; simp at h2
    | ok chans =>
        obtain ⟨a, b, c⟩ := chans
        rw [hgc] at h2
        cases hgx : (cmdDefOpt.getD backend.defaultCmdDef).get xGateName [c_qubit] [] with
        | error e => rw [hgx] at h2; simp at h2
        | ok echo_pi =>
            rw [hgx] at h2
            simp only [Except.ok.injEq, Prod.mk.injEq] at h2
            exact h2.1.symm
  subst ht1; subst ht2
  refine ⟨by simp only [crTimes, List.length_map], by simp only [crTimes, List.length_map], ?_⟩
  intro i hi
  have hd : cr_samples[i]? = some cr_samples[i] := List.getElem?_eq_getElem hi
  refine ⟨cr_samples[i], hd, ?_, ?_⟩ <;>
    simp only [crTimes, List.getElem?_map, hd, Option.map_some']

/-- Concrete outputs of the two rabi builders used to witness C9. -/
def c9OutW1 : List ℚ × List Schedule :=
  (cr1_rabi_schedules 0 1 backendW [10] ampW 2 2 none none).toOption.getD ([], [])

def c9OutW2 : List ℚ × List Schedule :=
  (cr2_rabi_schedules 0 1 backendW [10] ampW 2 2 none none).toOption.getD ([], [])

/-- Witness for C9 amended: both hypotheses hold at a concrete input and the
conclusion follows there. -/
theorem c9_amended_times_witness :
    cr1_rabi_schedules 0 1 backendW [10] ampW 2 2 none none
        = Except.ok (c9OutW1.1, c9OutW1.2) ∧
    cr2_rabi_schedules 0 1 backendW [10] ampW 2 2 none none
        = Except.ok (c9OutW2.1, c9OutW2.2) ∧
    c9OutW1.1.length = ([10] : List Nat).length :=
  ⟨rfl, rfl, (c9_amended_times 0 1 backendW [10] ampW 2 2 none none
      c9OutW1.1 c9OutW2.1 c9OutW1.2 c9OutW2.2 rfl rfl).1⟩

end CRSched

namespace CRSched

/-! ### C6, C7, C8: channel resolution -/

/-- C6: For every qubit pair for which the effective command-definition
mapping has no `cx` primitive, channel resolution — and hence each rabi
builder calling it — fails with the characterization-domain error identifying
the qubit pair (the "no cross-resonance" message), immediately and with no
partial output. -/
theorem c6_no_cx_characterization_error (c_qubit t_qubit : Nat) (backend : Backend)
    (cmdDefOpt : Option CmdDef)
    (h : (cmdDefOpt.getD backend.defaultCmdDef).cmds cxName [c_qubit, t_qubit] [] = none) :
    get_channels c_qubit t_qubit backend cmdDefOpt
        = Except.error (Err.characterization (crNotDefinedMsg c_qubit t_qubit)) ∧
    ∀ cr_samples cr_amp sigma risefall can,
      cr1_rabi_schedules c_qubit t_qubit backend cr_samples cr_amp sigma risefall
          can cmdDefOpt
        = Except.error (Err.characterization (crNotDefinedMsg c_qubit t_qubit)) ∧
      cr2_rabi_schedules c_qubit t_qubit backend cr_samples cr_amp sigma risefall
          can cmdDefOpt
        = Except.error (Err.characterization (crNotDefinedMsg c_qubit t_qubit)) := by
  refine ⟨by simp only [get_channels, h], ?_⟩
  intro cr_samples cr_amp sigma risefall can
  constructor
  · simp only [cr1_rabi_schedules, get_channels, Option.getD_some, h]
  · simp only [cr2_rabi_schedules, get_channels, Option.getD_some, h]

/-- Witness for C6 on the concrete backend defining no `cx` primitive. -/
theorem c6_no_cx_characterization_error_witness :
    ((none : Option CmdDef).getD backendNoCx.defaultCmdDef).cmds cxName [0, 1] [] = none ∧
    get_channels 0 1 backendNoCx none
        = Except.error (Err.characterization (crNotDefinedMsg 0 1)) :=
  ⟨rfl, (c6_no_cx_characterization_error 0 1 backendNoCx none rfl).1⟩

/-- C7: For every qubit pair whose `cx` primitive, after filtering to
pulse-type instructions, has no control-type channel among its channels,
channel resolution raises the "no valid control channel" characterization
error rather than returning any default or empty channel. -/
theorem c7_no_control_channel_error (c_qubit t_qubit : Nat) (backend : Backend)
    (cmdDefOpt : Option CmdDef) (cx_sched : Schedule)
    (hcx : (cmdDefOpt.getD backend.defaultCmdDef).cmds cxName [c_qubit, t_qubit] []
        = some cx_sched)
    (hno : cx_sched.filterPulse.channels.all (fun ch => ! ch.isControl) = true) :
    get_channels c_qubit t_qubit backend cmdDefOpt
        = Except.error (Err.characterization noControlChannelMsg) := by
  have hfind : cx_sched.filterPulse.channels.find? Channel.isControl = none := by
    rw [List.find?_eq_none]
    intro x hx
    have hx' := (List.all_eq_true.mp hno) x hx
    simp only [Bool.not_eq_true'] at hx'
    simp [hx']
  simp only [get_channels, hcx, hfind]

/-- Witness for C7: a backend whose `cx` primitive touches a control channel
only through a frame-change instruction, which the pulse-instruction filter
removes. -/
theorem c7_no_control_channel_error_witness :
    ((none : Option CmdDef).getD backendNoCtrl.defaultCmdDef).cmds cxName [0, 1] []
        = some cxNoCtrlW ∧
    cxNoCtrlW.filterPulse.channels.all (fun ch => ! ch.isControl) = true ∧
    get_channels 0 1 backendNoCtrl none
        = Except.error (Err.characterization noControlChannelMsg) :=
  ⟨rfl, rfl, c7_no_control_channel_error 0 1 backendNoCtrl none cxNoCtrlW rfl rfl⟩

/-- C8: For every pair of distinct qubits on which channel resolution
succeeds (a coupling primitive with a coupling-type channel exists), the
three returned channel handles — control drive, target drive and
cross-resonance drive — are pairwise distinct, the cross-resonance handle is
a control-type channel, and resolution is deterministic: the same backend and
command-definition snapshot give equal results. -/
theorem c8_distinct_deterministic_channels (c_qubit t_qubit : Nat) (backend : Backend)
    (cmdDefOpt : Option CmdDef) (c_drive t_drive cr_drive : Channel)
    (hne : c_qubit ≠ t_qubit)
    (h : get_channels c_qubit t_qubit backend cmdDefOpt
        = Except.ok (c_drive, t_drive, cr_drive)) :
    c_drive ≠ t_drive ∧ c_drive ≠ cr_drive ∧ t_drive ≠ cr_drive ∧
    cr_drive.isControl = true ∧
    get_channels c_qubit t_qubit backend cmdDefOpt
      = get_channels c_qubit t_qubit backend cmdDefOpt := by
  simp only [get_channels] at h
  cases hcx : (cmdDefOpt.getD backend.defaultCmdDef).cmds cxName [c_qubit, t_qubit] [] with
  | none => rw [hcx] at h; simp at h
  | some cx_ref =>
      rw [hcx] at h
      dsimp only at h
      cases hf : cx_ref.filterPulse.channels.find? Channel.isControl with
      | none => rw [hf] at h; simp at h
      | some ch =>
          rw [hf] at h
          simp only [Except.ok.injEq, Prod.mk.injEq] at h
          obtain ⟨h1, h2, h3⟩ := h
          have hctrl : Channel.isControl ch = true := List.find?_some hf
          subst h1; subst h2; subst h3
          refine ⟨?_, ?_, ?_, hctrl, rfl⟩
          · simp [driveChannelOf, hne]
          · cases ch <;> simp_all [Channel.isControl, driveChannelOf]
          · cases ch <;> simp_all [Channel.isControl, driveChannelOf]

/-- Witness for C8 on the concrete backend with a valid `cx` primitive. -/
theorem c8_distinct_deterministic_channels_witness :
    (0 : Nat) ≠ 1 ∧
    get_channels 0 1 backendW none
        = Except.ok (Channel.drive 0, Channel.drive 1, Channel.control 0) ∧
    Channel.drive 0 ≠ Channel.control 0 :=
  ⟨by decide, rfl,
    (c8_distinct_deterministic_channels 0 1 backendW none
      (Channel.drive 0) (Channel.drive 1) (Channel.control 0) (by decide) rfl).2.1⟩

/-! ### C5: the tomography naming crashes on the builders' string names -/

/-- The schedules produced by `cr1_rabi_schedules` on the witness backend;
their names are the decimal strings of their indices. -/
def c5RabisW : List Schedule :=
  ((cr1_rabi_schedules 0 1 backendW [10] ampW 2 2 none none).toOption.getD ([], [])).2

/-- C5 (code bug): the rabi builders name their schedules with the decimal
string of the duration index (`'%d' % index`), but the tomography wrapper
formats the composite key with `'%d,%s,%d' % (rabi_sched.name, basis,
c_state)`, and `%d` applied to a `str` name raises `TypeError`; so
`cr_tomography_schedules` fails on the builders' own output instead of
producing the composite names the claim describes. -/
theorem c5_naming_type_error :
    c5RabisW.map Schedule.name = [PyVal.str (Nat.repr 0)] ∧
    cr_tomography_schedules 0 1 backendW c5RabisW none
        = Except.error (Err.typeError dFormatErrMsg) :=
  ⟨rfl, rfl⟩

end CRSched

namespace CRSched

/-! ### C2: tomography enumeration -/

theorem tomoPerRabi_ok (flip : Schedule) (buf : Nat) (rabi : Schedule)
    (mb : List (String × Schedule)) (per : List Schedule)
    (h : tomoPerRabi flip buf rabi mb = Except.ok per) :
    per.length = 2 * mb.length ∧
    ∀ j, j < per.length → ∃ bm s, mb[j / 2]? = some bm ∧ per[j]? = some s ∧
      tomoBody flip buf rabi bm (j % 2) = Except.ok s := by
  induction mb generalizing per with
  | nil =>
      simp only [tomoPerRabi, Except.ok.injEq] at h
      subst h
      simp
  | cons bm rest ih =>
      simp only [tomoPerRabi] at h
      cases h0 : tomoBody flip buf rabi bm 0 with
      | error e => rw [h0] at h; simp at h
      | ok s0 =>
          rw [h0] at h; dsimp only at h
          cases h1 : tomoBody flip buf rabi bm 1 with
          | error e => rw [h1] at h; simp at h
          | ok s1 =>
              rw [h1] at h; dsimp only at h
              cases hr : tomoPerRabi flip buf rabi rest with
              | error e => rw [hr] at h; simp at h
              | ok tail =>
                  rw [hr] at h; simp only [Except.ok.injEq] at h
                  subst h
                  obtain ⟨ihlen, ihidx⟩ := ih tail hr
                  constructor
                  · simp only [List.length_cons, ihlen]
                    omega
                  · intro j hj
                    match j with
                    | 0 => exact ⟨bm, s0, by simp, by simp, by simpa using h0⟩
                    | 1 => exact ⟨bm, s1, by simp, by simp, by simpa using h1⟩
                    | (k + 2) =>
                        have hk : k < tail.length := by
                          simp only [List.length_cons] at hj
                          omega
                        obtain ⟨bm', s, hbm, hs, hb⟩ := ihidx k hk
                        refine ⟨bm', s, ?_, ?_, ?_⟩
                        · have hdiv : (k + 2) / 2 = k / 2 + 1 := by omega
                          rw [hdiv, List.getElem?_cons_succ]
                          exact hbm
                        · simpa only [List.getElem?_cons_succ] using hs
                        · have hmod : (k + 2) % 2 = k % 2 := by omega
                          rw [hmod]
                          exact hb

theorem tomoAll_ok (flip : Schedule) (buf : Nat) (mb : List (String × Schedule))
    (hmb : mb.length = 3) (rabis : List Schedule) (out : List Schedule)
    (h : tomoAll flip buf mb rabis = Except.ok out) :
    out.length = 6 * rabis.length ∧
    ∀ i, i < out.length → ∃ r bm s, rabis[i / 6]? = some r ∧ mb[i % 6 / 2]? = some bm ∧
      out[i]? = some s ∧ tomoBody flip buf r bm (i % 2) = Except.ok s := by
  induction rabis generalizing out with
  | nil =>
      simp only [tomoAll, Except.ok.injEq] at h
      subst h
      simp
  | cons r rs ih =>
      simp only [tomoAll] at h
      cases hp : tomoPerRabi flip buf r mb with
      | error e => rw [hp] at h; simp at h
      | ok per =>
          rw [hp] at h; dsimp only at h
          cases ha : tomoAll flip buf mb rs with
          | error e => rw [ha] at h; simp at h
          | ok tail =>
              rw [ha] at h; simp only [Except.ok.injEq] at h
              subst h
              obtain ⟨hplen, hpidx⟩ := tomoPerRabi_ok flip buf r mb per hp
              obtain ⟨hlen, hidx⟩ := ih tail ha
              have hper6 : per.length = 6 := by omega
              constructor
              · simp only [List.length_append, hper6, hlen, List.length_cons]
                omega
              · intro i hi
                by_cases hlt : i < 6
                · obtain ⟨bm, s, hbm, hs, hb⟩ := hpidx i (by omega)
                  refine ⟨r, bm, s, ?_, ?_, ?_, hb⟩
                  · have hdiv : i / 6 = 0 := by omega
                    rw [hdiv]
                    simp
                  · have hmod : i % 6 = i := by omega
                    rw [hmod]
                    exact hbm
                  · rw [List.getElem?_append, if_pos (by omega : i < per.length)]
                    exact hs
                · have hi' : i - 6 < tail.length := by
                    simp only [List.length_append, hper6] at hi
                    omega
                  obtain ⟨r', bm, s, hr', hbm, hs, hb⟩ := hidx (i - 6) hi'
                  refine ⟨r', bm, s, ?_, ?_, ?_, ?_⟩
                  · have hdiv : i / 6 = (i - 6) / 6 + 1 := by omega
                    rw [hdiv, List.getElem?_cons_succ]
                    exact hr'
                  · have hmod : i % 6 = (i - 6) % 6 := by omega
                    rw [hmod]
                    exact hbm
                  · rw [List.getElem?_append_right (by omega : per.length ≤ i), hper6]
                    exact hs
                  · have hmod : i % 2 = (i - 6) % 2 := by omega
                    rw [hmod]
                    exact hb

theorem measBasisList_ok (t_qubit : Nat) (backend : Backend) (cmdDefOpt : Option CmdDef)
    (mb : List (String × Schedule))
    (h : measBasisList t_qubit backend cmdDefOpt = Except.ok mb) :
    mb.length = 3 ∧ mb.map Prod.fst = [xBasisLabel, yBasisLabel, zBasisLabel] := by
  simp only [measBasisList] at h
  cases h1 : (cmdDefOpt.getD backend.defaultCmdDef).get measureName backend.measMap0 [] with
  | error e => rw [h1] at h; simp at h
  | ok measure =>
      rw [h1] at h; dsimp only at h
      cases h2 : (cmdDefOpt.getD backend.defaultCmdDef).get u2Name [t_qubit] [0, piAngle] with
      | error e => rw [h2] at h; simp at h
      | ok xproj =>
          rw [h2] at h; dsimp only at h
          cases h3 : (cmdDefOpt.getD backend.defaultCmdDef).get u2Name [t_qubit]
              [0, (1 / 2 : ℚ) * piAngle] with
          | error e => rw [h3] at h; simp at h
          | ok yproj =>
              rw [h3] at h
              simp only [Except.ok.injEq] at h
              subst h
              simp

/-- C2: For every list of M input rabi schedules, whenever
`cr_tomography_schedules` returns, it returns exactly 6M schedules, with the
basis dictionary in its fixed `x`, `y`, `z` order, and the schedule at output
position `i` is exactly the one built (by `tomoBody`) from rabi schedule
`i / 6`, basis `(i % 6) / 2` and control state `i % 2` — i.e. position
`rabi_idx * 6 + basis_idx * 2 + control_state`. -/
theorem c2_tomography_enumeration (c_qubit t_qubit : Nat) (backend : Backend)
    (rabi_schedules : List Schedule) (cmdDefOpt : Option CmdDef) (out : List Schedule)
    (h : cr_tomography_schedules c_qubit t_qubit backend rabi_schedules cmdDefOpt
        = Except.ok out) :
    out.length = 6 * rabi_schedules.length ∧
    ∃ flip_ctrl mb,
      flipCtrl c_qubit backend cmdDefOpt = Except.ok flip_ctrl ∧
      measBasisList t_qubit backend cmdDefOpt = Except.ok mb ∧
      mb.map Prod.fst = [xBasisLabel, yBasisLabel, zBasisLabel] ∧
      ∀ i, i < out.length → ∃ r bm s,
        rabi_schedules[i / 6]? = some r ∧ mb[i % 6 / 2]? = some bm ∧ out[i]? = some s ∧
        tomoBody flip_ctrl backend.buffer r bm (i % 2) = Except.ok s := by
  simp only [cr_tomography_schedules] at h
  cases hfc : flipCtrl c_qubit backend cmdDefOpt with
  | error e => rw [hfc] at h; simp at h
  | ok flip =>
      rw [hfc] at h; dsimp only at h
      cases hmb : measBasisList t_qubit backend cmdDefOpt with
      | error e => rw [hmb] at h; simp at h
      | ok mb =>
          rw [hmb] at h; dsimp only at h
          obtain ⟨hlen3, hnames⟩ := measBasisList_ok t_qubit backend cmdDefOpt mb hmb
          obtain ⟨hlen, hidx⟩ := tomoAll_ok flip backend.buffer mb hlen3 rabi_schedules out h
          exact ⟨hlen, flip, mb, rfl, rfl, hnames, hidx⟩

/-- The concrete tomography output on the witness backend with one
integer-named rabi schedule. -/
def c2OutW : List Schedule :=
  (cr_tomography_schedules 0 1 backendW [rabiIntW] none).toOption.getD []

/-- Witness for C2: the hypothesis holds at a concrete input and the output
length is `6 * 1` there. -/
theorem c2_tomography_enumeration_witness :
    cr_tomography_schedules 0 1 backendW [rabiIntW] none = Except.ok c2OutW ∧
    c2OutW.length = 6 * [rabiIntW].length :=
  ⟨rfl, (c2_tomography_enumeration 0 1 backendW [rabiIntW] none c2OutW rfl).1⟩

end CRSched

namespace CRSched

/-! ### C4: where the CR rabi schedule starts inside a tomography schedule -/

theorem shiftInstrs_zero (l : List (Nat × Instruction)) : shiftInstrs 0 l = l := by
  simp [shiftInstrs]

/-- C4 counterexample: on the witness backend (flip-pulse duration `4`,
buffer `2`) the first tomography schedule — rabi index `0`, basis `x`,
control state `0` — has its CR rabi instruction at offset
`flip_ctrl.duration + buffer = 6`, not at one buffer gap (`2`) as the claim
states for `control_state = 0`. -/
theorem c4_counterexample :
    ((cr_tomography_schedules 0 1 backendW [rabiIntW] none).toOption.bind
        (fun out => out.head?)).map (fun s => s.instructions.map Prod.fst)
      = some [6, 18, 20] ∧
    backendW.buffer = 2 ∧
    ¬ ((6 : Nat) = backendW.buffer) :=
  ⟨rfl, rfl, by decide⟩

/-- C4 amended: In every schedule built by the tomography loop body, the CR
rabi schedule is inserted at offset exactly `flip_ctrl.duration + buffer`
regardless of the control state (for `control_state = 1` this places it at or
after the flip pulse's end, strictly after whenever the buffer is positive);
the flip pulse is inserted at offset `0` — its instructions keep their own
offsets — exactly when the control state is `1`, and nothing else precedes
the CR rabi schedule. -/
theorem c4_amended_rabi_offset (flip_ctrl : Schedule) (buffer : Nat)
    (rabi_sched : Schedule) (bm : String × Schedule) (c_state : Nat) (sched : Schedule)
    (h : tomoBody flip_ctrl buffer rabi_sched bm c_state = Except.ok sched) :
    ∃ rest, sched.instructions =
      (if c_state ≠ 0 then flip_ctrl.instructions else [])
        ++ shiftInstrs (flip_ctrl.duration + buffer) rabi_sched.instructions ++ rest := by
  simp only [tomoBody] at h
  cases hn : formatSchedName rabi_sched.name bm.1 c_state with
  | error e => rw [hn] at h; simp at h
  | ok nm =>
      rw [hn] at h; dsimp only at h
      simp only [Except.ok.injEq] at h
      subst h
      by_cases hc : c_state ≠ 0
      · refine ⟨shiftInstrs
            ((((⟨PyVal.str nm, []⟩ : Schedule).insert 0 flip_ctrl).insert
                (flip_ctrl.duration + buffer) rabi_sched).duration + buffer)
            bm.2.instructions, ?_⟩
        simp only [if_pos hc, Schedule.insert, shiftInstrs_zero, List.nil_append,
          List.append_assoc]
      · refine ⟨shiftInstrs
            (((⟨PyVal.str nm, []⟩ : Schedule).insert
                (flip_ctrl.duration + buffer) rabi_sched).duration + buffer)
            bm.2.instructions, ?_⟩
        simp only [if_neg hc, Schedule.insert, List.nil_append, List.append_assoc]

/-- The concrete tomography loop-body output used to witness the amended C4. -/
def c4TomoW : Schedule :=
  (tomoBody echoW 2 rabiIntW (xBasisLabel, measW) 0).toOption.getD ⟨PyVal.int 0, []⟩

/-- Witness for the amended C4 at a concrete input with control state `0`. -/
theorem c4_amended_rabi_offset_witness :
    tomoBody echoW 2 rabiIntW (xBasisLabel, measW) 0 = Except.ok c4TomoW ∧
    ∃ rest, c4TomoW.instructions =
      (if (0 : Nat) ≠ 0 then echoW.instructions else [])
        ++ shiftInstrs (echoW.duration + 2) rabiIntW.instructions ++ rest :=
  ⟨rfl, c4_amended_rabi_offset echoW 2 rabiIntW (xBasisLabel, measW) 0 c4TomoW rfl⟩

end CRSched

namespace CRSched

/-! ### C3: echoed builder durations and placement -/

theorem Schedule.insert_instructions (s : Schedule) (t : Nat) (sub : Schedule) :
    (s.insert t sub).instructions = s.instructions ++ shiftInstrs t sub.instructions := rfl

theorem Schedule.insertInstr_instructions (s : Schedule) (t : Nat) (i : Instruction) :
    (s.insertInstr t i).instructions = s.instructions ++ [(t, i)] := rfl

theorem Schedule.duration_nil (n : PyVal) : (⟨n, []⟩ : Schedule).duration = 0 := rfl

theorem gaussianSquare_duration (d : Nat) (a : Cplx) (s : ℚ) (r : Nat) :
    (Command.gaussianSquare d a s r).duration = d := rfl

/-- Exact shape of one echoed-CR schedule: the two positive pulses at offset
`0`, then echo, negative CR pulse, negative cancellation pulse and echo again,
each inserted at the running schedule duration plus one buffer — so the
second cancellation segment follows the negative CR pulse instead of running
concurrently with it — and total duration
`3 * (d / 2) + 4 * buffer + 2 * echo_pi.duration` (for a nonempty calibrated
echo pulse). -/
theorem cr2Single_spec (t_drive cr_drive : Channel) (echo_pi : Schedule) (buffer : Nat)
    (cr_amp : Cplx) (sigma : ℚ) (rf : Nat) (can : Option Cplx) (i d : Nat)
    (hE : echo_pi.instructions ≠ []) :
    (cr2Single t_drive cr_drive echo_pi buffer cr_amp sigma rf can i d).instructions =
      [(0, ⟨Command.gaussianSquare (d / 2) cr_amp sigma rf, [cr_drive]⟩),
       (0, ⟨canCmd can (d / 2) sigma rf, [t_drive]⟩)]
      ++ shiftInstrs (d / 2 + buffer) echo_pi.instructions
      ++ [(d / 2 + buffer + echo_pi.duration + buffer,
            ⟨Command.gaussianSquare (d / 2) cr_amp.neg sigma rf, [cr_drive]⟩),
          (2 * (d / 2) + 2 * buffer + echo_pi.duration + buffer,
            ⟨canNegCmd can (d / 2) sigma rf, [t_drive]⟩)]
      ++ shiftInstrs (3 * (d / 2) + 3 * buffer + echo_pi.duration + buffer)
          echo_pi.instructions ∧
    (cr2Single t_drive cr_drive echo_pi buffer cr_amp sigma rf can i d).duration =
      3 * (d / 2) + 4 * buffer + 2 * echo_pi.duration := by
  have h2 : (((⟨PyVal.str (Nat.repr i), []⟩ : Schedule).insertInstr 0
        ⟨Command.gaussianSquare (d / 2) cr_amp sigma rf, [cr_drive]⟩).insertInstr 0
        ⟨canCmd can (d / 2) sigma rf, [t_drive]⟩).duration = d / 2 := by
    simp only [Schedule.duration_insertInstr, Schedule.duration_nil, canCmd_duration,
      gaussianSquare_duration]
    omega
  have h3 : ((((⟨PyVal.str (Nat.repr i), []⟩ : Schedule).insertInstr 0
        ⟨Command.gaussianSquare (d / 2) cr_amp sigma rf, [cr_drive]⟩).insertInstr 0
        ⟨canCmd can (d / 2) sigma rf, [t_drive]⟩).insert (d / 2 + buffer)
        echo_pi).duration = d / 2 + buffer + echo_pi.duration := by
    rw [Schedule.duration_insert _ _ _ hE, h2]
    omega
  have h4 : (((((⟨PyVal.str (Nat.repr i), []⟩ : Schedule).insertInstr 0
        ⟨Command.gaussianSquare (d / 2) cr_amp sigma rf, [cr_drive]⟩).insertInstr 0
        ⟨canCmd can (d / 2) sigma rf, [t_drive]⟩).insert (d / 2 + buffer)
        echo_pi).insertInstr (d / 2 + buffer + echo_pi.duration + buffer)
        ⟨Command.gaussianSquare (d / 2) cr_amp.neg sigma rf, [cr_drive]⟩).duration
      = 2 * (d / 2) + 2 * buffer + echo_pi.duration := by
    rw [Schedule.duration_insertInstr, h3]
    simp only [gaussianSquare_duration]
    omega
  have h5 : ((((((⟨PyVal.str (Nat.repr i), []⟩ : Schedule).insertInstr 0
        ⟨Command.gaussianSquare (d / 2) cr_amp sigma rf, [cr_drive]⟩).insertInstr 0
        ⟨canCmd can (d / 2) sigma rf, [t_drive]⟩).insert (d / 2 + buffer)
        echo_pi).insertInstr (d / 2 + buffer + echo_pi.duration + buffer)
        ⟨Command.gaussianSquare (d / 2) cr_amp.neg sigma rf, [cr_drive]⟩).insertInstr
        (2 * (d / 2) + 2 * buffer + echo_pi.duration + buffer)
        ⟨canNegCmd can (d / 2) sigma rf, [t_drive]⟩).duration
      = 3 * (d / 2) + 3 * buffer + echo_pi.duration := by
    rw [Schedule.duration_insertInstr, h4, canNegCmd_duration]
    omega
  unfold cr2Single
  dsimp only
  constructor
  · rw [h2, h3, h4, h5]
    simp only [Schedule.insert_instructions, Schedule.insertInstr_instructions,
      List.nil_append, List.append_assoc, List.cons_append]
  · rw [h2, h3, h4, h5, Schedule.duration_insert _ _ _ hE, h5]
    omega

theorem cr2Loop_length (t_drive cr_drive : Channel) (echo_pi : Schedule) (buffer : Nat)
    (cr_amp : Cplx) (sigma : ℚ) (rf : Nat) (can : Option Cplx) (i0 : Nat) (l : List Nat) :
    (cr2Loop t_drive cr_drive echo_pi buffer cr_amp sigma rf can i0 l).length
      = l.length := by
  induction l generalizing i0 with
  | nil => rfl
  | cons d rest ih => simp [cr2Loop, ih]

theorem cr2Loop_getElem? (t_drive cr_drive : Channel) (echo_pi : Schedule) (buffer : Nat)
    (cr_amp : Cplx) (sigma : ℚ) (rf : Nat) (can : Option Cplx) (i0 : Nat) (l : List Nat)
    (i : Nat) :
    (cr2Loop t_drive cr_drive echo_pi buffer cr_amp sigma rf can i0 l)[i]? =
      (l[i]?).map (fun d =>
        cr2Single t_drive cr_drive echo_pi buffer cr_amp sigma rf can (i0 + i) d) := by
  induction l generalizing i0 i with
  | nil => simp [cr2Loop]
  | cons d rest ih =>
      cases i with
      | zero => simp [cr2Loop]
      | succ j =>
          simp only [cr2Loop, List.getElem?_cons_succ, ih]
          have hadd : i0 + 1 + j = i0 + (j + 1) := by omega
          rw [hadd]

/-- C3 counterexample: on the witness backend (buffer `2`, flip duration `4`)
with requested duration `10`, the echoed schedule's total duration is `31`,
not `2 * floor(10/2) + 2 * buffer + 2 * flip_duration = 22` as the claim
states. -/
theorem c3_counterexample :
    (cr2_rabi_schedules 0 1 backendW [10] ampW 2 2 none none).toOption.map
        (fun p => p.2.map Schedule.duration) = some [31] ∧
    backendW.buffer = 2 ∧ echoW.duration = 4 ∧
    ¬ ((31 : Nat) = 2 * (10 / 2) + 2 * backendW.buffer + 2 * echoW.duration) :=
  ⟨rfl, rfl, rfl, by decide⟩

/-- C3 amended: each schedule built by `cr2_rabi_schedules` has total
duration exactly `3 * floor(d/2) + 4 * buffer + 2 * flip_duration` (for a
nonempty calibrated flip pulse), with segments placed strictly sequentially:
after the two concurrent positive pulses at offset zero, each of the four
subsequent segments — echo pulse, negative CR pulse, negative cancellation
pulse (or delay), echo pulse — is inserted at the running total schedule
duration plus one buffer gap, so the second cancellation segment follows the
negative CR pulse rather than running concurrently with it. -/
theorem c3_amended_echoed_durations (c_qubit t_qubit : Nat) (backend : Backend)
    (cr_samples : List Nat) (cr_amp : Cplx) (sigma : ℚ) (risefall : Nat)
    (can : Option Cplx) (cmdDefOpt : Option CmdDef) (times : List ℚ)
    (scheds : List Schedule)
    (h : cr2_rabi_schedules c_qubit t_qubit backend cr_samples cr_amp sigma risefall
          can cmdDefOpt = Except.ok (times, scheds)) :
    scheds.length = cr_samples.length ∧
    ∃ echo_pi,
      (cmdDefOpt.getD backend.defaultCmdDef).get xGateName [c_qubit] []
          = Except.ok echo_pi ∧
      (echo_pi.instructions ≠ [] →
        ∀ i, i < cr_samples.length → ∃ d s, cr_samples[i]? = some d ∧ scheds[i]? = some s ∧
          s.duration = 3 * (d / 2) + 4 * backend.buffer + 2 * echo_pi.duration ∧
          ∃ td crd, s.instructions =
            [(0, ⟨Command.gaussianSquare (d / 2) cr_amp sigma risefall, [crd]⟩),
             (0, ⟨canCmd can (d / 2) sigma risefall, [td]⟩)]
            ++ shiftInstrs (d / 2 + backend.buffer) echo_pi.instructions
            ++ [(d / 2 + backend.buffer + echo_pi.duration + backend.buffer,
                  ⟨Command.gaussianSquare (d / 2) cr_amp.neg sigma risefall, [crd]⟩),
                (2 * (d / 2) + 2 * backend.buffer + echo_pi.duration + backend.buffer,
                  ⟨canNegCmd can (d / 2) sigma risefall, [td]⟩)]
            ++ shiftInstrs (3 * (d / 2) + 3 * backend.buffer + echo_pi.duration
                  + backend.buffer) echo_pi.instructions) := by
  simp only [cr2_rabi_schedules] at h
  cases hgc : get_channels c_qubit t_qubit backend
      (some (cmdDefOpt.getD backend.defaultCmdDef)) with
  | error e => rw [hgc] at h; simp at h
  | ok chans =>
      obtain ⟨c_drive, t_drive, cr_drive⟩ := chans
      rw [hgc] at h
      dsimp only at h
      cases hx : (cmdDefOpt.getD backend.defaultCmdDef).get xGateName [c_qubit] [] with
      | error e => rw [hx] at h; simp at h
      | ok echo_pi =>
          rw [hx] at h
          dsimp only at h
          simp only [Except.ok.injEq, Prod.mk.injEq] at h
          obtain ⟨-, hs⟩ := h
          subst hs
          refine ⟨cr2Loop_length .., echo_pi, rfl, ?_⟩
          intro hE i hi
          have hd : cr_samples[i]? = some cr_samples[i] := List.getElem?_eq_getElem hi
          obtain ⟨hinstr, hdur⟩ := cr2Single_spec t_drive cr_drive echo_pi backend.buffer
            cr_amp sigma risefall can i cr_samples[i] hE
          refine ⟨cr_samples[i],
            cr2Single t_drive cr_drive echo_pi backend.buffer cr_amp sigma risefall can
              i cr_samples[i],
            hd, ?_, hdur, t_drive, cr_drive, hinstr⟩
          rw [cr2Loop_getElem?, hd]
          simp

/-- The concrete output of `cr2_rabi_schedules` on the witness backend. -/
def c3OutW : List ℚ × List Schedule :=
  (cr2_rabi_schedules 0 1 backendW [10] ampW 2 2 none none).toOption.getD ([], [])

/-- Witness for the amended C3 at a concrete input. -/
theorem c3_amended_echoed_durations_witness :
    cr2_rabi_schedules 0 1 backendW [10] ampW 2 2 none none
        = Except.ok (c3OutW.1, c3OutW.2) ∧
    c3OutW.2.length = ([10] : List Nat).length :=
  ⟨rfl, (c3_amended_echoed_durations 0 1 backendW [10] ampW 2 2 none none
      c3OutW.1 c3OutW.2 rfl).1⟩

end CRSched
